import Mathlib

/-!
Shallow embedding of `src/include/CircularBuffer.hpp` (mzenz/CircularBuffer).

Modelling conventions:
* `size_t` values are natural numbers; every arithmetic step the C++ code
  performs on a `size_t` (increment, decrement, doubling, index offsets) is
  taken modulo `W = 2^64`, the size of `size_t` on the reference platform.
* The backing store `T* _elements` is a `List (Option T)` of length `_size`:
  `some v` is a slot holding a constructed `T`, `none` is an uninitialized or
  destroyed slot (the C++ code allocates raw memory and uses placement new /
  explicit destructor calls).  Reading a slot yields an `Option T`; reading
  uninitialized memory yields `none`.  An out-of-bounds write (possible in the
  C++ only through undefined behaviour) is a no-op via `List.set`.
* C++ exceptions (`std::runtime_error` from the boundary policies) become the
  `Except CBError` monad: `.error e` models a throw, which in the C++ aborts
  the member function before any mutation, leaving the object unchanged.
* The policy template parameters `GrowPolicy` / `CheckBoundariesPolicy` become
  record values passed to `push` / `pop` / `clear`.
-/

/-- Width of `size_t`: all size_t arithmetic in the source is modulo `W`. -/
def W : Nat := 2 ^ 64

/-- Errors signalled by the boundary-checking policies: `CheckBoundaryThrow`
throws "buffer full" on push-when-full (Overflow) and "buffer empty" on
pop-when-empty (Underflow). -/
inductive CBError where
  | Overflow
  | Underflow
  deriving DecidableEq, Repr

/-- A growing policy: the static function `newSize(size_t currentSize)`. -/
structure GrowPolicyT where
  newSize : Nat → Nat

/-- A boundary-checking policy: the static functions `checkEmpty(count)` and
`checkFull(count, size)`, which either return normally or throw. -/
structure BoundaryPolicyT where
  checkEmpty : Nat → Except CBError Unit
  checkFull : Nat → Nat → Except CBError Unit

/-- `class NoGrow { static size_t newSize(size_t s) { return s; } }` -/
def NoGrow : GrowPolicyT := ⟨fun currentSize => currentSize⟩

/-- `class GrowSingle { static size_t newSize(size_t s) { return s + 1; } }` -/
def GrowSingle : GrowPolicyT := ⟨fun currentSize => (currentSize + 1) % W⟩

/-- `class GrowDouble { static size_t newSize(size_t s) { return s * 2; } }` -/
def GrowDouble : GrowPolicyT := ⟨fun currentSize => (currentSize * 2) % W⟩

/-- `class NoBoundaryCheck`: both checks are no-ops. -/
def NoBoundaryCheck : BoundaryPolicyT :=
  ⟨fun _ => .ok (), fun _ _ => .ok ()⟩

/-- `class CheckBoundaryThrow`: `checkEmpty` throws when `count == 0`,
`checkFull` throws when `count == size`. -/
def CheckBoundaryThrow : BoundaryPolicyT :=
  ⟨fun count => if count = 0 then .error .Underflow else .ok (),
   fun count size => if count = size then .error .Overflow else .ok ()⟩

/-- State of `CircularBuffer<T, GrowPolicy, CheckBoundariesPolicy>`: the data
members `_size`, `_count`, `_nextPushPos`, `_nextPopPos`, `_elements`. -/
structure CircularBuffer (T : Type) where
  _size : Nat
  _count : Nat
  _nextPushPos : Nat
  _nextPopPos : Nat
  _elements : List (Option T)
  deriving DecidableEq, Repr

namespace CircularBuffer

variable {T : Type}

/-- The constructor `CircularBuffer(size_t size)`: `_size(size)`, `_count(0)`,
`_nextPushPos(0)`, `_nextPopPos(0)`, and a freshly allocated, uninitialized
block of `size` slots.  The `bad_alloc` path (thrown when
`get_temporary_buffer` returns a zero pair - which is deterministic at
`size = 0`, making a capacity-0 buffer unconstructible through the real
API) is not modelled: allocation success is assumed, so states of this type
with `_size = 0` are reachable only in the model. -/
def construct (T : Type) (size : Nat) : CircularBuffer T :=
  { _size := size, _count := 0, _nextPushPos := 0, _nextPopPos := 0,
    _elements := List.replicate size none }

/-- `size_t size() const { return _size; }` -/
def size (b : CircularBuffer T) : Nat := b._size

/-- `size_t count() const { return _count; }` -/
def count (b : CircularBuffer T) : Nat := b._count

/-- `bool isEmpty() const { return _count == 0; }` -/
def isEmpty (b : CircularBuffer T) : Bool := b._count == 0

/-- `bool isFull() const { return _count == _size; }` -/
def isFull (b : CircularBuffer T) : Bool := b._count == b._size

/-- `void advance(size_t& pos) { if(++pos == _size) pos = 0; }`; the increment
is `size_t` arithmetic, hence modulo `W`. -/
def advance (b : CircularBuffer T) (currentPos : Nat) : Nat :=
  let p := (currentPos + 1) % W
  if p = b._size then 0 else p

/-- The two copy loops of `resize`: for each index `i` of `idxs` in order,
`newBuffer[(i + off) mod W] = _elements[i]` (an out-of-range destination
index leaves the destination unchanged, an out-of-range source reads
uninitialized memory, i.e. `none`). -/
def copyLoop (src : List (Option T)) (off : Nat) :
    List (Option T) → List Nat → List (Option T)
  | dst, [] => dst
  | dst, i :: is => copyLoop src off (dst.set ((i + off) % W) (src.getD i none)) is

/-- `void resize(size_t newSize)`: no-op when `newSize == _size`; otherwise
allocate `newSize` uninitialized slots, copy `[0, _nextPushPos)` keeping
indices, copy `[_nextPushPos, _size)` shifted by `offset = newSize - _size`
(size_t subtraction, modulo `W`), then `_nextPopPos += offset` and
`_size = newSize`.  `_count` and `_nextPushPos` are not touched. -/
def resize (b : CircularBuffer T) (newSize : Nat) : CircularBuffer T :=
  if b._size = newSize then b
  else
    let offset : Nat := (W + newSize - b._size % W) % W
    let nb0 : List (Option T) := List.replicate newSize none
    let nb1 := copyLoop b._elements 0 nb0 (List.range b._nextPushPos)
    let nb2 := copyLoop b._elements offset nb1
      (List.range' b._nextPushPos (b._size - b._nextPushPos))
    { b with _size := newSize,
             _nextPopPos := (b._nextPopPos + offset) % W,
             _elements := nb2 }

/-- The unconditional tail of `push` (after the boundary check and the
conditional resize): `++_count;` (modulo `W`),
`new (&_elements[_nextPushPos]) T(elem);`, `advance(_nextPushPos);`. -/
def pushRaw (b : CircularBuffer T) (elem : T) : CircularBuffer T :=
  { b with _count := (b._count + 1) % W,
           _elements := b._elements.set b._nextPushPos (some elem),
           _nextPushPos := b.advance b._nextPushPos }

/-- `void push(const T& elem)`: run the boundary policy's `checkFull` (which
may throw, aborting before any mutation); then `if(isFull())
resize(GrowPolicy::newSize(_size));`; then store the element. -/
def push (gp : GrowPolicyT) (bp : BoundaryPolicyT) (b : CircularBuffer T)
    (elem : T) : Except CBError (CircularBuffer T) :=
  match bp.checkFull b._count b._size with
  | .error e => .error e
  | .ok _ =>
    .ok ((if b._count = b._size then b.resize (gp.newSize b._size) else b).pushRaw elem)

/-- `T pop()`: run the boundary policy's `checkEmpty` (which may throw,
aborting before any mutation); then `--_count` (modulo `W`), remember
`popPos = _nextPopPos`, `advance(_nextPopPos)`, copy the element at `popPos`
(`none` when that slot is uninitialized), destroy the slot, and return the
copy. -/
def pop (bp : BoundaryPolicyT) (b : CircularBuffer T) :
    Except CBError (Option T × CircularBuffer T) :=
  match bp.checkEmpty b._count with
  | .error e => .error e
  | .ok _ =>
    .ok (b._elements.getD b._nextPopPos none,
         { b with _count := (W - 1 + b._count) % W,
                  _nextPopPos := b.advance b._nextPopPos,
                  _elements := b._elements.set b._nextPopPos none })

/-- Loop body of `clear`: `for(; count() > 0;) pop();`, with fuel equal to the
initial count (each successful pop on a representable state decreases
`_count` by one, so `_count` iterations reach zero). -/
def clearLoop (bp : BoundaryPolicyT) :
    Nat → CircularBuffer T → Except CBError (CircularBuffer T)
  | 0, b => .ok b
  | fuel + 1, b =>
    if b._count = 0 then .ok b
    else
      match b.pop bp with
      | .error e => .error e
      | .ok (_, b') => clearLoop bp fuel b'

/-- `void clear()`: repeatedly pops until `count() == 0`. -/
def clear (bp : BoundaryPolicyT) (b : CircularBuffer T) :
    Except CBError (CircularBuffer T) :=
  clearLoop bp b._count b

/-- `T& operator[](size_t index) const { return _elements[index]; }` (debug
access; may read an uninitialized slot, i.e. `none`). -/
def getAt (b : CircularBuffer T) (index : Nat) : Option T :=
  b._elements.getD index none


/-- The state after a successful `pop` (the mutations `--_count`,
`advance(_nextPopPos)` and the destructor call on the popped slot). -/
def popState (b : CircularBuffer T) : CircularBuffer T :=
  { b with _count := (W - 1 + b._count) % W,
           _nextPopPos := b.advance b._nextPopPos,
           _elements := b._elements.set b._nextPopPos none }

/-- Abstraction relation: buffer `b` holds exactly the FIFO queue `q` (head
of `q` = next element popped).  The live elements sit, in order, in the
`q.length` contiguous-with-wraparound slots starting at `_nextPopPos`, and
`_nextPushPos` is `q.length` slots further along (modulo `_size`). -/
def Models (b : CircularBuffer T) (q : List T) : Prop :=
  b._count = q.length ∧
  q.length ≤ b._size ∧
  b._size < W ∧
  b._nextPopPos < b._size ∧
  b._nextPushPos = (b._nextPopPos + q.length) % b._size ∧
  b._elements.length = b._size ∧
  ∀ (i : Nat) (h : i < q.length),
    b._elements[(b._nextPopPos + i) % b._size]? = some (some (q.get ⟨i, h⟩))

/-- A sequence of pushes, propagating the first boundary-policy error. -/
def pushList (gp : GrowPolicyT) (bp : BoundaryPolicyT) :
    CircularBuffer T → List T → Except CBError (CircularBuffer T)
  | b, [] => .ok b
  | b, v :: vs =>
    match push gp bp b v with
    | .error e => .error e
    | .ok b' => pushList gp bp b' vs

/-- A sequence of `n` pops, collecting the returned values in order and
propagating the first boundary-policy error. -/
def popList (bp : BoundaryPolicyT) :
    Nat → CircularBuffer T → Except CBError (List (Option T) × CircularBuffer T)
  | 0, b => .ok ([], b)
  | n + 1, b =>
    match b.pop bp with
    | .error e => .error e
    | .ok (v, b') =>
      match popList bp n b' with
      | .error e => .error e
      | .ok (vs, b'') => .ok (v :: vs, b'')

end CircularBuffer

/-- One client-visible operation on a buffer (after construction). -/
inductive Op (T : Type) where
  | push (v : T)
  | pop
  | clear
  | resize (n : Nat)

/-- Execute one operation.  A thrown boundary error leaves the C++ object in
its prior state (the policies throw before any mutation), which the
functional model renders by keeping `b`. -/
def step (gp : GrowPolicyT) (bp : BoundaryPolicyT) (b : CircularBuffer T) :
    Op T → CircularBuffer T
  | .push v =>
    match CircularBuffer.push gp bp b v with
    | .ok b' => b'
    | .error _ => b
  | .pop =>
    match CircularBuffer.pop bp b with
    | .ok x => x.2
    | .error _ => b
  | .clear =>
    match CircularBuffer.clear bp b with
    | .ok b' => b'
    | .error _ => b
  | .resize n => b.resize n

/-- Execute a sequence of operations from a starting state. -/
def run (gp : GrowPolicyT) (bp : BoundaryPolicyT) :
    CircularBuffer T → List (Op T) → CircularBuffer T
  | b, [] => b
  | b, op :: ops => run gp bp (step gp bp b op) ops

/-- Every explicit `resize` in the sequence asks for a representable capacity
at least the current element count (the growth-only regime the spec's
migration scheme assumes). -/
def goodResizes (gp : GrowPolicyT) (bp : BoundaryPolicyT) :
    CircularBuffer T → List (Op T) → Bool
  | _, [] => true
  | b, op :: ops =>
    (match op with
     | .resize n => decide (b._count ≤ n ∧ n < W)
     | _ => true) && goodResizes gp bp (step gp bp b op) ops


/-- Spec §8 grow scenario, first two steps: `RingBuffer(capacity=2,
GrowByDouble, CheckedThrow)`; `push(1); push(2)`. -/
def c1AfterTwo : Except CBError (CircularBuffer Nat) :=
  (CircularBuffer.push GrowDouble CheckBoundaryThrow (CircularBuffer.construct Nat 2) 1).bind
    fun b => CircularBuffer.push GrowDouble CheckBoundaryThrow b 2

/-- Spec §8 resize scenario: capacity 3, push A=10, B=20, C=30 (tail wraps to
0), pop (returns A), push D=40 - a full buffer whose head is 1. -/
def c3FullState : Except CBError (CircularBuffer Nat) :=
  (CircularBuffer.push NoGrow NoBoundaryCheck (CircularBuffer.construct Nat 3) 10).bind fun b =>
  (CircularBuffer.push NoGrow NoBoundaryCheck b 20).bind fun b =>
  (CircularBuffer.push NoGrow NoBoundaryCheck b 30).bind fun b =>
  (CircularBuffer.pop NoBoundaryCheck b).bind fun p =>
  CircularBuffer.push NoGrow NoBoundaryCheck p.2 40

/-- The three pops following `resize(5)` in the spec §8 resize scenario. -/
def c3PopsAfterResize : Except CBError (Option Nat × Option Nat × Option Nat) :=
  c3FullState.bind fun b =>
  (CircularBuffer.pop NoBoundaryCheck (b.resize 5)).bind fun p1 =>
  (CircularBuffer.pop NoBoundaryCheck p1.2).bind fun p2 =>
  (CircularBuffer.pop NoBoundaryCheck p2.2).map fun p3 => (p1.1, p2.1, p3.1)

/-- A resize of a NON-full buffer: capacity 3, push 10, push 20 (head = 0,
tail = 2, count = 2), `resize(5)`, then one pop. -/
def c3NonFullPop : Except CBError (Option Nat) :=
  (CircularBuffer.push NoGrow NoBoundaryCheck (CircularBuffer.construct Nat 3) 10).bind fun b =>
  (CircularBuffer.push NoGrow NoBoundaryCheck b 20).bind fun b =>
  (CircularBuffer.pop NoBoundaryCheck (b.resize 5)).map Prod.fst

/-- `GrowBySingle` with the checked boundary policy: fill a capacity-1 buffer
and push once more. -/
def c5Checked : Except CBError (CircularBuffer Nat) :=
  (CircularBuffer.push GrowSingle CheckBoundaryThrow (CircularBuffer.construct Nat 1) 5).bind
    fun b => CircularBuffer.push GrowSingle CheckBoundaryThrow b 6

/-- `GrowBySingle`, unchecked, on an (empty = full) capacity-0 buffer: one
push, then one pop. -/
def c5ZeroCap : Except CBError (Option Nat) :=
  (CircularBuffer.push GrowSingle NoBoundaryCheck (CircularBuffer.construct Nat 0) 7).bind
    fun b => (CircularBuffer.pop NoBoundaryCheck b).map Prod.fst

namespace CircularBuffer

variable {T : Type}

/-! Basic arithmetic and slot helpers. -/

theorem W_pos : 0 < W := by decide

theorem slot_ne {p i j s : Nat} (hij : i < j) (hj : j - i < s) :
    (p + i) % s ≠ (p + j) % s := by
  intro h
  have hle : p + i ≤ p + j := by omega
  have hdvd : s ∣ (p + j) - (p + i) := (Nat.modEq_iff_dvd' hle).mp h
  have : (p + j) - (p + i) = j - i := by omega
  rw [this] at hdvd
  have := Nat.eq_zero_of_dvd_of_lt hdvd hj
  omega

theorem advance_eq {b : CircularBuffer T} {pos : Nat} (hpos : pos < b._size)
    (hs : b._size < W) : b.advance pos = (pos + 1) % b._size := by
  have h1 : (pos + 1) % W = pos + 1 := Nat.mod_eq_of_lt (by omega)
  unfold advance
  simp only [h1]
  by_cases h : pos + 1 = b._size
  · simp [h, Nat.mod_self]
  · have : pos + 1 < b._size := by omega
    simp [h, Nat.mod_eq_of_lt this]

theorem offset_eq {s n : Nat} (hs : s < W) (hn : n < W) (hsn : s ≤ n) :
    (W + n - s % W) % W = n - s := by
  rw [Nat.mod_eq_of_lt hs]
  have h1 : W + n - s = W + (n - s) := by omega
  rw [h1, Nat.add_mod_left]
  exact Nat.mod_eq_of_lt (by omega)

/-! Properties of the `resize` copy loops. -/

theorem copyLoop_length (src : List (Option T)) (off : Nat) :
    ∀ (idxs : List Nat) (dst : List (Option T)),
      (copyLoop src off dst idxs).length = dst.length := by
  intro idxs
  induction idxs with
  | nil => intro dst; rfl
  | cons a as ih =>
    intro dst
    simp only [copyLoop, ih, List.length_set]

theorem copyLoop_getElem?_not_mem {src : List (Option T)} {off j : Nat} :
    ∀ {idxs : List Nat} {dst : List (Option T)},
      (∀ i ∈ idxs, (i + off) % W ≠ j) → (copyLoop src off dst idxs)[j]? = dst[j]? := by
  intro idxs
  induction idxs with
  | nil => intro dst _; rfl
  | cons a as ih =>
    intro dst h
    simp only [copyLoop]
    rw [ih fun i hi => h i (List.mem_cons_of_mem a hi)]
    exact List.getElem?_set_ne (h a (List.mem_cons_self a as))

theorem copyLoop_getElem?_mem {src : List (Option T)} {off j i : Nat} :
    ∀ {idxs : List Nat} {dst : List (Option T)},
      i ∈ idxs → (i + off) % W = j → j < dst.length →
      (∀ i₁ ∈ idxs, (i₁ + off) % W = j → i₁ = i) →
      (copyLoop src off dst idxs)[j]? = some (src.getD i none) := by
  intro idxs
  induction idxs with
  | nil => intro dst h; exact absurd h (List.not_mem_nil i)
  | cons a as ih =>
    intro dst hmem hj hlen huniq
    simp only [copyLoop]
    by_cases hias : i ∈ as
    · exact ih hias hj (by rw [List.length_set]; exact hlen)
        (fun i₁ h₁ h₂ => huniq i₁ (List.mem_cons_of_mem a h₁) h₂)
    · have ha : a = i := by
        rcases List.mem_cons.mp hmem with h | h
        · exact h.symm
        · exact absurd h hias
      subst ha
      have hnot : ∀ i₁ ∈ as, (i₁ + off) % W ≠ j := by
        intro i₁ h₁ h₂
        exact hias (huniq i₁ (List.mem_cons_of_mem a h₁) h₂ ▸ h₁)
      rw [copyLoop_getElem?_not_mem hnot, hj]
      exact List.getElem?_set_eq_of_lt _ hlen

end CircularBuffer

namespace CircularBuffer

variable {T : Type}

theorem getElem?_eq_some_getD {l : List (Option T)} {i : Nat} (h : i < l.length) :
    l[i]? = some (l.getD i none) := by
  rw [List.getD_eq_getElem?_getD, List.getElem?_eq_getElem h]
  rfl

/-- Behaviour of `resize` for a growing capacity change, slot by slot:
capacity becomes `n`, `_count` and `_nextPushPos` are unchanged,
`_nextPopPos` is shifted by `offset = n - _size`, slots in
`[0, _nextPushPos)` keep their index and slots in `[_nextPushPos, _size)`
move to `index + offset`. -/
theorem resize_grow_spec (b : CircularBuffer T) (n : Nat)
    (hlen : b._elements.length = b._size)
    (ht : b._nextPushPos ≤ b._size)
    (hgrow : b._size < n) (hn : n < W) :
    (b.resize n)._size = n ∧
    (b.resize n)._count = b._count ∧
    (b.resize n)._nextPushPos = b._nextPushPos ∧
    ((b._nextPopPos < b._size →
      (b.resize n)._nextPopPos = b._nextPopPos + (n - b._size))) ∧
    (b.resize n)._elements.length = n ∧
    (∀ i, i < b._nextPushPos → (b.resize n)._elements[i]? = b._elements[i]?) ∧
    (∀ i, b._nextPushPos ≤ i → i < b._size →
      (b.resize n)._elements[i + (n - b._size)]? = b._elements[i]?) := by
  have hs : b._size < W := lt_trans hgrow hn
  have hne : ¬ b._size = n := Nat.ne_of_lt hgrow
  have hoff : (W + n - b._size % W) % W = n - b._size := offset_eq hs hn (le_of_lt hgrow)
  have hoffpos : 1 ≤ n - b._size := by omega
  simp only [resize, if_neg hne, hoff]
  set s := b._size with hsdef
  set t := b._nextPushPos with htdef
  set off := n - s with hoffdef
  set src := b._elements with hsrcdef
  set nb0 : List (Option T) := List.replicate n none with hnb0
  set nb1 := copyLoop src 0 nb0 (List.range t) with hnb1
  set nb2 := copyLoop src off nb1 (List.range' t (s - t)) with hnb2
  have hlen1 : nb1.length = n := by
    rw [hnb1, copyLoop_length, hnb0, List.length_replicate]
  have hlen2 : nb2.length = n := by
    rw [hnb2, copyLoop_length, hlen1]
  refine ⟨trivial, trivial, trivial, ?_, hlen2, ?_, ?_⟩
  · intro hp
    exact Nat.mod_eq_of_lt (by omega)
  · intro i hi
    have hi2 : ∀ i₁ ∈ List.range' t (s - t), (i₁ + off) % W ≠ i := by
      intro i₁ h₁ h₂
      rcases List.mem_range'_1.mp h₁ with ⟨hlo, hhi⟩
      have : i₁ + off < W := by omega
      rw [Nat.mod_eq_of_lt this] at h₂
      omega
    rw [hnb2, copyLoop_getElem?_not_mem hi2, hnb1]
    have hmod : (i + 0) % W = i := by
      rw [Nat.add_zero]; exact Nat.mod_eq_of_lt (by omega)
    rw [copyLoop_getElem?_mem (List.mem_range.mpr hi) hmod
      (by rw [hnb0, List.length_replicate]; omega)
      (fun i₁ h₁ h₂ => by
        have : i₁ < t := List.mem_range.mp h₁
        rw [Nat.add_zero, Nat.mod_eq_of_lt (by omega)] at h₂
        exact h₂)]
    exact (getElem?_eq_some_getD (by omega)).symm
  · intro i hti his
    have hmem : i ∈ List.range' t (s - t) := List.mem_range'_1.mpr ⟨hti, by omega⟩
    have hmod : (i + off) % W = i + off := Nat.mod_eq_of_lt (by omega)
    rw [hnb2, copyLoop_getElem?_mem hmem hmod (by omega)
      (fun i₁ h₁ h₂ => by
        rcases List.mem_range'_1.mp h₁ with ⟨hlo, hhi⟩
        rw [Nat.mod_eq_of_lt (by omega)] at h₂
        omega)]
    exact (getElem?_eq_some_getD (by omega)).symm

end CircularBuffer

namespace CircularBuffer

variable {T : Type}

/-! Projection lemmas for the state after the unconditional part of `push`,
after `pop`, and for a freshly constructed buffer. -/

@[simp] theorem pushRaw_size (b : CircularBuffer T) (v : T) :
    (b.pushRaw v)._size = b._size := rfl

@[simp] theorem pushRaw_count (b : CircularBuffer T) (v : T) :
    (b.pushRaw v)._count = (b._count + 1) % W := rfl

@[simp] theorem pushRaw_nextPushPos (b : CircularBuffer T) (v : T) :
    (b.pushRaw v)._nextPushPos = b.advance b._nextPushPos := rfl

@[simp] theorem pushRaw_nextPopPos (b : CircularBuffer T) (v : T) :
    (b.pushRaw v)._nextPopPos = b._nextPopPos := rfl

@[simp] theorem pushRaw_elements (b : CircularBuffer T) (v : T) :
    (b.pushRaw v)._elements = b._elements.set b._nextPushPos (some v) := rfl

@[simp] theorem popState_size (b : CircularBuffer T) :
    b.popState._size = b._size := rfl

@[simp] theorem popState_count (b : CircularBuffer T) :
    b.popState._count = (W - 1 + b._count) % W := rfl

@[simp] theorem popState_nextPushPos (b : CircularBuffer T) :
    b.popState._nextPushPos = b._nextPushPos := rfl

@[simp] theorem popState_nextPopPos (b : CircularBuffer T) :
    b.popState._nextPopPos = b.advance b._nextPopPos := rfl

@[simp] theorem popState_elements (b : CircularBuffer T) :
    b.popState._elements = b._elements.set b._nextPopPos none := rfl

theorem push_eq_ok {gp : GrowPolicyT} {bp : BoundaryPolicyT} {b : CircularBuffer T}
    {elem : T} (hchk : bp.checkFull b._count b._size = .ok ()) :
    push gp bp b elem =
      .ok ((if b._count = b._size then b.resize (gp.newSize b._size) else b).pushRaw elem) := by
  unfold push
  rw [hchk]

theorem push_eq_error {gp : GrowPolicyT} {bp : BoundaryPolicyT} {b : CircularBuffer T}
    {elem : T} {e : CBError} (hchk : bp.checkFull b._count b._size = .error e) :
    push gp bp b elem = .error e := by
  unfold push
  rw [hchk]

theorem pop_eq_ok {bp : BoundaryPolicyT} {b : CircularBuffer T}
    (hchk : bp.checkEmpty b._count = .ok ()) :
    b.pop bp = .ok (b._elements.getD b._nextPopPos none, b.popState) := by
  unfold pop popState
  rw [hchk]

theorem pop_eq_error {bp : BoundaryPolicyT} {b : CircularBuffer T} {e : CBError}
    (hchk : bp.checkEmpty b._count = .error e) :
    b.pop bp = .error e := by
  unfold pop
  rw [hchk]

end CircularBuffer

namespace CircularBuffer

variable {T : Type}

theorem construct_models {c : Nat} (hc : c < W) (hpos : 0 < c) :
    Models (construct T c) [] := by
  refine ⟨rfl, Nat.zero_le c, hc, hpos, by simp [construct], by simp [construct], ?_⟩
  intro i h
  simp at h

theorem pushRaw_models {b : CircularBuffer T} {q : List T} {v : T}
    (hm : Models b q) (hlt : q.length < b._size) :
    Models (b.pushRaw v) (q ++ [v]) := by
  obtain ⟨hc, hle, hsW, hp, ht, hel, hslots⟩ := hm
  have hspos : 0 < b._size := by omega
  have htlt : b._nextPushPos < b._size := by
    rw [ht]; exact Nat.mod_lt _ hspos
  refine ⟨?_, ?_, ?_, ?_, ?_, ?_, ?_⟩
  · simp only [pushRaw_count, hc, List.length_append, List.length_singleton]
    exact Nat.mod_eq_of_lt (by omega)
  · simp only [pushRaw_size, List.length_append, List.length_singleton]
    omega
  · simp only [pushRaw_size]; exact hsW
  · simp only [pushRaw_nextPopPos, pushRaw_size]; exact hp
  · simp only [pushRaw_nextPushPos, pushRaw_nextPopPos, pushRaw_size,
      List.length_append, List.length_singleton]
    have harith : b._nextPopPos + q.length + 1 = b._nextPopPos + (q.length + 1) := by
      omega
    rw [advance_eq htlt hsW, ht, Nat.mod_add_mod, harith]
  · simp only [pushRaw_elements, pushRaw_size, List.length_set]
    exact hel
  · intro i hi
    have hi' : i < q.length + 1 := by simpa using hi
    simp only [pushRaw_elements, pushRaw_nextPopPos, pushRaw_size]
    by_cases hil : i < q.length
    · have hne : b._nextPushPos ≠ (b._nextPopPos + i) % b._size := by
        rw [ht]
        exact (slot_ne hil (by omega)).symm
      rw [List.getElem?_set_ne hne, hslots i hil]
      have hgv : (q ++ [v]).get ⟨i, hi⟩ = q.get ⟨i, hil⟩ := by
        simp only [List.get_eq_getElem]
        exact List.getElem_append_left hil
      rw [hgv]
    · have hieq : i = q.length := by omega
      subst hieq
      rw [← ht, List.getElem?_set_eq_of_lt _ (by omega)]
      have hgv : (q ++ [v]).get ⟨q.length, hi⟩ = v := by
        simp only [List.get_eq_getElem]
        exact List.getElem_concat_length q v _ rfl _
      rw [hgv]

theorem pop_models {bp : BoundaryPolicyT}
    (hbp : bp = NoBoundaryCheck ∨ bp = CheckBoundaryThrow)
    {b : CircularBuffer T} {v : T} {q : List T} (hm : Models b (v :: q)) :
    b.pop bp = .ok (some v, b.popState) ∧ Models b.popState q := by
  obtain ⟨hc, hle, hsW, hp, ht, hel, hslots⟩ := hm
  rw [List.length_cons] at hc hle ht
  have hspos : 0 < b._size := by omega
  have hWpos : 0 < W := by omega
  have hchk : bp.checkEmpty b._count = .ok () := by
    rcases hbp with h | h <;> subst h
    · rfl
    · simp only [CheckBoundaryThrow]
      rw [if_neg (by omega)]
  have hv : b._elements.getD b._nextPopPos none = some v := by
    have h0 := hslots 0 (by simp)
    simp only [List.get_eq_getElem, List.getElem_cons_zero] at h0
    rw [Nat.add_zero, Nat.mod_eq_of_lt hp] at h0
    rw [List.getD_eq_getElem?_getD, h0]
    rfl
  constructor
  · rw [pop_eq_ok hchk, hv]
  · refine ⟨?_, ?_, ?_, ?_, ?_, ?_, ?_⟩
    · simp only [popState_count, hc]
      have hq : W - 1 + (q.length + 1) = q.length + W := by omega
      rw [hq, Nat.add_mod_right]
      exact Nat.mod_eq_of_lt (by omega)
    · simp only [popState_size]; omega
    · simp only [popState_size]; exact hsW
    · simp only [popState_nextPopPos, popState_size]
      rw [advance_eq hp hsW]
      exact Nat.mod_lt _ hspos
    · simp only [popState_nextPushPos, popState_nextPopPos, popState_size]
      rw [advance_eq hp hsW, Nat.mod_add_mod, ht]
      congr 1
      omega
    · simp only [popState_elements, popState_size, List.length_set]
      exact hel
    · intro i hi
      simp only [popState_elements, popState_nextPopPos, popState_size]
      rw [advance_eq hp hsW, Nat.mod_add_mod]
      have hidx : b._nextPopPos + 1 + i = b._nextPopPos + (i + 1) := by omega
      rw [hidx]
      have hne : b._nextPopPos ≠ (b._nextPopPos + (i + 1)) % b._size := by
        have h1 := slot_ne (p := b._nextPopPos) (i := 0) (j := i + 1)
          (s := b._size) (by omega) (by omega)
        rw [Nat.add_zero, Nat.mod_eq_of_lt hp] at h1
        exact h1
      rw [List.getElem?_set_ne hne]
      have h1 := hslots (i + 1) (by simp only [List.length_cons]; omega)
      simp only [List.get_eq_getElem, List.getElem_cons_succ] at h1
      rw [h1]
      rfl

end CircularBuffer

namespace CircularBuffer

variable {T : Type}

theorem resize_count (b : CircularBuffer T) (n : Nat) :
    (b.resize n)._count = b._count := by
  unfold resize
  split <;> rfl

theorem resize_size_of_ne {b : CircularBuffer T} {n : Nat} (hne : b._size ≠ n) :
    (b.resize n)._size = n := by
  unfold resize
  rw [if_neg hne]

theorem resize_nextPushPos (b : CircularBuffer T) (n : Nat) :
    (b.resize n)._nextPushPos = b._nextPushPos := by
  unfold resize
  split <;> rfl

/-- A `resize` to a larger capacity performed on a full buffer (the only
way `push` ever calls it) preserves the abstract FIFO queue. -/
theorem resize_full_models {b : CircularBuffer T} {q : List T} {n : Nat}
    (hm : Models b q) (hfull : q.length = b._size)
    (hgrow : b._size < n) (hn : n < W) :
    Models (b.resize n) q := by
  obtain ⟨hc, hle, hsW, hp, ht, hel, hslots⟩ := hm
  have hspos : 0 < b._size := by omega
  have htp : b._nextPushPos = b._nextPopPos := by
    rw [ht, hfull, Nat.add_mod_right]
    exact Nat.mod_eq_of_lt hp
  obtain ⟨h1, h2, h3, h4, h5, h6, h7⟩ :=
    resize_grow_spec b n hel (by rw [htp]; omega) hgrow hn
  refine ⟨?_, ?_, ?_, ?_, ?_, ?_, ?_⟩
  · rw [h2, hc]
  · rw [h1]; omega
  · rw [h1]; exact hn
  · rw [h4 hp, h1]; omega
  · rw [h3, htp, h4 hp, h1, hfull]
    have harith : b._nextPopPos + (n - b._size) + b._size = b._nextPopPos + n := by
      omega
    rw [harith, Nat.add_mod_right]
    exact (Nat.mod_eq_of_lt (by omega)).symm
  · rw [h5, h1]
  · intro i hi
    rw [h4 hp, h1]
    by_cases hcase : b._nextPopPos + i < b._size
    · have hslot := h7 (b._nextPopPos + i) (by rw [htp]; omega) hcase
      have hidx : (b._nextPopPos + (n - b._size) + i) % n =
          b._nextPopPos + i + (n - b._size) := by
        have he : b._nextPopPos + (n - b._size) + i =
            b._nextPopPos + i + (n - b._size) := by omega
        rw [he]
        exact Nat.mod_eq_of_lt (by omega)
      rw [hidx, hslot]
      have h0 := hslots i hi
      rw [Nat.mod_eq_of_lt hcase] at h0
      exact h0
    · have hwrap : b._size ≤ b._nextPopPos + i := by omega
      have hilen : i < b._size := by omega
      have hpi : b._nextPopPos + i - b._size < b._nextPushPos := by
        rw [htp]; omega
      have hslot := h6 (b._nextPopPos + i - b._size) hpi
      have hidx : (b._nextPopPos + (n - b._size) + i) % n =
          b._nextPopPos + i - b._size := by
        have he : b._nextPopPos + (n - b._size) + i =
            (b._nextPopPos + i - b._size) + n := by omega
        rw [he, Nat.add_mod_right]
        exact Nat.mod_eq_of_lt (by omega)
      rw [hidx, hslot]
      have h0 := hslots i hi
      have hmod : (b._nextPopPos + i) % b._size = b._nextPopPos + i - b._size := by
        rw [Nat.mod_eq_sub_mod hwrap]
        exact Nat.mod_eq_of_lt (by omega)
      rw [hmod] at h0
      exact h0

end CircularBuffer

namespace CircularBuffer

variable {T : Type}

theorem push_notFull (gp : GrowPolicyT) {bp : BoundaryPolicyT}
    (hbp : bp = NoBoundaryCheck ∨ bp = CheckBoundaryThrow)
    {b : CircularBuffer T} (hne : b._count ≠ b._size) (v : T) :
    push gp bp b v = .ok (b.pushRaw v) := by
  have hchk : bp.checkFull b._count b._size = .ok () := by
    rcases hbp with h | h <;> subst h
    · rfl
    · simp only [CheckBoundaryThrow]
      rw [if_neg hne]
  rw [push_eq_ok hchk, if_neg hne]

theorem push_full_unchecked {gp : GrowPolicyT} {b : CircularBuffer T}
    (hfull : b._count = b._size) (v : T) :
    push gp NoBoundaryCheck b v = .ok ((b.resize (gp.newSize b._size)).pushRaw v) := by
  rw [push_eq_ok rfl, if_pos hfull]

/-- Pushing onto a full buffer under the unchecked boundary policy, with any
growth policy that actually enlarges the capacity, grows the buffer to the
policy's new size and appends the element at the back of the FIFO queue. -/
theorem push_full_models (gp : GrowPolicyT) {b : CircularBuffer T} {q : List T}
    (v : T) (hm : Models b q) (hfull : b._count = b._size)
    (hgrow : b._size < gp.newSize b._size) (hn : gp.newSize b._size < W) :
    push gp NoBoundaryCheck b v = .ok ((b.resize (gp.newSize b._size)).pushRaw v) ∧
    Models ((b.resize (gp.newSize b._size)).pushRaw v) (q ++ [v]) ∧
    ((b.resize (gp.newSize b._size)).pushRaw v)._size = gp.newSize b._size := by
  have hq : q.length = b._size := by
    rw [← hm.1]; exact hfull
  have hmr := resize_full_models hm hq hgrow hn
  have hsz : (b.resize (gp.newSize b._size))._size = gp.newSize b._size :=
    resize_size_of_ne (by omega)
  refine ⟨push_full_unchecked hfull v, ?_, ?_⟩
  · exact pushRaw_models hmr (by rw [hsz]; omega)
  · rw [pushRaw_size]; exact hsz

theorem pushList_models {gp : GrowPolicyT} {bp : BoundaryPolicyT}
    (hbp : bp = NoBoundaryCheck ∨ bp = CheckBoundaryThrow) :
    ∀ (vs : List T) (b : CircularBuffer T) (q : List T), Models b q →
      q.length + vs.length ≤ b._size →
      ∃ b', pushList gp bp b vs = .ok b' ∧ Models b' (q ++ vs) ∧ b'._size = b._size := by
  intro vs
  induction vs with
  | nil =>
    intro b q hm hlen
    exact ⟨b, rfl, by simpa using hm, rfl⟩
  | cons v vs ih =>
    intro b q hm hlen
    simp only [List.length_cons] at hlen
    have hne : b._count ≠ b._size := by
      rw [hm.1]; omega
    have hpush := push_notFull gp hbp hne v
    have hm' := pushRaw_models (v := v) hm (by omega)
    obtain ⟨b', hb', hmb', hsz⟩ := ih (b.pushRaw v) (q ++ [v]) hm'
      (by simp only [pushRaw_size, List.length_append, List.length_singleton]; omega)
    refine ⟨b', ?_, ?_, ?_⟩
    · simp only [pushList, hpush]
      exact hb'
    · simpa using hmb'
    · rw [hsz, pushRaw_size]

theorem popList_models {bp : BoundaryPolicyT}
    (hbp : bp = NoBoundaryCheck ∨ bp = CheckBoundaryThrow) :
    ∀ (q : List T) (b : CircularBuffer T), Models b q →
      ∃ b', popList bp q.length b = .ok (q.map some, b') ∧ Models b' [] := by
  intro q
  induction q with
  | nil =>
    intro b hm
    exact ⟨b, rfl, hm⟩
  | cons v q ih =>
    intro b hm
    obtain ⟨hpop, hm'⟩ := pop_models hbp hm
    obtain ⟨b', hb', hmb'⟩ := ih b.popState hm'
    refine ⟨b', ?_, hmb'⟩
    simp only [List.length_cons, popList, hpop, hb', List.map_cons]

theorem clearLoop_ok {bp : BoundaryPolicyT}
    (hbp : bp = NoBoundaryCheck ∨ bp = CheckBoundaryThrow) :
    ∀ (fuel : Nat) (b : CircularBuffer T), b._count = fuel → fuel < W →
      ∃ b', clearLoop bp fuel b = .ok b' ∧ b'._count = 0 ∧ b'._size = b._size := by
  intro fuel
  induction fuel with
  | zero =>
    intro b hcount _
    exact ⟨b, rfl, hcount, rfl⟩
  | succ fuel ih =>
    intro b hcount hW
    have hchk : bp.checkEmpty b._count = .ok () := by
      rcases hbp with h | h <;> subst h
      · rfl
      · simp only [CheckBoundaryThrow]
        rw [if_neg (by omega)]
    have hc' : b.popState._count = fuel := by
      simp only [popState_count, hcount]
      have hq : W - 1 + (fuel + 1) = fuel + W := by omega
      rw [hq, Nat.add_mod_right]
      exact Nat.mod_eq_of_lt (by omega)
    obtain ⟨b', hb', h0, hsz⟩ := ih b.popState hc' (by omega)
    refine ⟨b', ?_, h0, by rw [hsz]; rfl⟩
    simp only [clearLoop, if_neg (by omega : ¬ b._count = 0), pop_eq_ok hchk]
    exact hb'

/-- `clear` under either shipped boundary policy: always returns without an
error, with `_count = 0` and the capacity unchanged. -/
theorem clear_ok {bp : BoundaryPolicyT}
    (hbp : bp = NoBoundaryCheck ∨ bp = CheckBoundaryThrow)
    (b : CircularBuffer T) (hcW : b._count < W) :
    ∃ b', b.clear bp = .ok b' ∧ b'._count = 0 ∧ b'._size = b._size :=
  clearLoop_ok hbp b._count b rfl hcW

end CircularBuffer

namespace CircularBuffer

variable {T : Type}

theorem resize_size (b : CircularBuffer T) (n : Nat) : (b.resize n)._size = n := by
  unfold resize
  split
  · assumption
  · rfl

theorem step_inv (gp : GrowPolicyT) {b : CircularBuffer T} {op : Op T}
    (hc : b._count ≤ b._size) (hs : b._size < W)
    (hop : ∀ n, op = Op.resize n → b._count ≤ n ∧ n < W) :
    (step gp CheckBoundaryThrow b op)._count ≤ (step gp CheckBoundaryThrow b op)._size ∧
    (step gp CheckBoundaryThrow b op)._size < W := by
  cases op with
  | push v =>
    by_cases hfull : b._count = b._size
    · have herr : push gp CheckBoundaryThrow b v = .error .Overflow :=
        push_eq_error (by simp only [CheckBoundaryThrow]; rw [if_pos hfull])
      simp only [step, herr]
      exact ⟨hc, hs⟩
    · have hok := push_notFull gp (Or.inr rfl) hfull v
      simp only [step, hok, pushRaw_count, pushRaw_size]
      rw [Nat.mod_eq_of_lt (by omega)]
      omega
  | pop =>
    by_cases h0 : b._count = 0
    · have herr : b.pop CheckBoundaryThrow = .error .Underflow :=
        pop_eq_error (by simp only [CheckBoundaryThrow]; rw [if_pos h0])
      simp only [step, herr]
      exact ⟨hc, hs⟩
    · have hchk : CheckBoundaryThrow.checkEmpty b._count = Except.ok () := by
        simp only [CheckBoundaryThrow]
        rw [if_neg h0]
      have hok := pop_eq_ok hchk
      simp only [step, hok, popState_count, popState_size]
      have hq : W - 1 + b._count = (b._count - 1) + W := by omega
      rw [hq, Nat.add_mod_right, Nat.mod_eq_of_lt (by omega)]
      omega
  | clear =>
    obtain ⟨b', hb', h0, hsz⟩ := clear_ok (Or.inr rfl) b (by omega)
    simp only [step, hb', h0, hsz]
    omega
  | resize n =>
    obtain ⟨hcn, hnW⟩ := hop n rfl
    simp only [step, resize_size, resize_count]
    exact ⟨hcn, hnW⟩

theorem run_inv {gp : GrowPolicyT} :
    ∀ (ops : List (Op T)) (b : CircularBuffer T),
      b._count ≤ b._size → b._size < W →
      goodResizes gp CheckBoundaryThrow b ops = true →
      (run gp CheckBoundaryThrow b ops)._count ≤ (run gp CheckBoundaryThrow b ops)._size ∧
      (run gp CheckBoundaryThrow b ops)._size < W := by
  intro ops
  induction ops with
  | nil =>
    intro b hc hs _
    exact ⟨hc, hs⟩
  | cons op ops ih =>
    intro b hc hs hgood
    simp only [goodResizes, Bool.and_eq_true] at hgood
    obtain ⟨h1, h2⟩ := hgood
    have hop : ∀ n, op = Op.resize n → b._count ≤ n ∧ n < W := by
      intro n hn
      rw [hn] at h1
      exact of_decide_eq_true h1
    obtain ⟨hc', hs'⟩ := step_inv gp hc hs hop
    exact ih (step gp CheckBoundaryThrow b op) hc' hs' h2

end CircularBuffer

open CircularBuffer

/-- Claim C1, counterexample: in the spec §8 scenario (capacity 2,
`GrowByDouble`, `CheckedThrow`), after `push(1); push(2)` the buffer is full,
and the third push signals Overflow instead of triggering growth - the
checked policy's full-check throws before the growth policy is ever
consulted, so the claimed "growth to capacity 4, count 3" state is never
reached. -/
theorem C1_grow_scenario_counterexample :
    c1AfterTwo.map CircularBuffer.isFull = .ok true ∧
    c1AfterTwo.bind (fun b => CircularBuffer.push GrowDouble CheckBoundaryThrow b 3) =
      .error CBError.Overflow ∧
    (c1AfterTwo.bind (fun b => CircularBuffer.push GrowDouble CheckBoundaryThrow b 3)).map
      CircularBuffer.count ≠ .ok 3 :=
  ⟨rfl, rfl, fun h => Except.noConfusion h⟩

/-- Claim C1, amended: capacity 2 with `GrowByDouble` and `CheckedThrow`:
push(1), push(2) make the buffer full; push(3) signals Overflow and the
buffer does not grow; the two pops then return 1 and 2 (count back to 0) and
a third pop signals Underflow. -/
theorem C1_grow_scenario_corrected :
    c1AfterTwo.map CircularBuffer.isFull = .ok true ∧
    c1AfterTwo.bind (fun b => CircularBuffer.push GrowDouble CheckBoundaryThrow b 3) =
      .error CBError.Overflow ∧
    (c1AfterTwo.bind fun b =>
      (CircularBuffer.pop CheckBoundaryThrow b).bind fun p1 =>
      (CircularBuffer.pop CheckBoundaryThrow p1.2).map fun p2 =>
        (p1.1, p2.1, p2.2.count)) = .ok (some 1, some 2, 0) ∧
    (c1AfterTwo.bind fun b =>
      (CircularBuffer.pop CheckBoundaryThrow b).bind fun p1 =>
      (CircularBuffer.pop CheckBoundaryThrow p1.2).bind fun p2 =>
      (CircularBuffer.pop CheckBoundaryThrow p2.2).map Prod.fst) =
      .error CBError.Underflow :=
  ⟨rfl, rfl, rfl, rfl⟩

/-- Claim C3, counterexample: `resize` to a larger capacity does NOT preserve
FIFO order for every buffer state.  Capacity 3 with elements 10, 20 pushed
(head 0, tail 2, not full), then `resize(5)`: head moves to `0 + offset = 2`,
but slots 0 and 1 keep their indices, so the next pop reads the uninitialized
slot 2 (`none`) instead of returning 10. -/
theorem C3_resize_nonfull_counterexample :
    c3NonFullPop = .ok none ∧ c3NonFullPop ≠ .ok (some 10) :=
  ⟨rfl, fun h => Option.noConfusion (Except.ok.inj h)⟩

/-- Claim C3, amended: for every buffer state and `newCapacity > capacity`,
`resize` moves slots `[0, tail)` to the same index and `[tail, capacity)` to
`index + offset` with `offset = newCapacity - capacity`, adds `offset` to the
head, and leaves tail and count unchanged while capacity becomes
`newCapacity`; this preserves the FIFO queue when the buffer is FULL
(`count = capacity` - the only case `push` exercises, and the case of the
spec's capacity-3 scenario, whose pops after `resize(5)` indeed yield
B=20, C=30, D=40). -/
theorem C3_resize_migration {T : Type} (b : CircularBuffer T) (n : Nat)
    (hlen : b._elements.length = b._size)
    (ht : b._nextPushPos ≤ b._size)
    (hp : b._nextPopPos < b._size)
    (hgrow : b._size < n) (hn : n < W) :
    ((b.resize n).size = n ∧
     (b.resize n).count = b.count ∧
     (b.resize n)._nextPushPos = b._nextPushPos ∧
     (b.resize n)._nextPopPos = b._nextPopPos + (n - b._size) ∧
     (∀ i, i < b._nextPushPos → (b.resize n)._elements[i]? = b._elements[i]?) ∧
     (∀ i, b._nextPushPos ≤ i → i < b._size →
       (b.resize n)._elements[i + (n - b._size)]? = b._elements[i]?)) ∧
    (∀ q, Models b q → b.count = b.size → Models (b.resize n) q) ∧
    c3PopsAfterResize = .ok (some 20, some 30, some 40) := by
  obtain ⟨h1, h2, h3, h4, _, h6, h7⟩ := resize_grow_spec b n hlen ht hgrow hn
  refine ⟨⟨h1, h2, h3, h4 hp, h6, h7⟩, ?_, rfl⟩
  intro q hm hfull
  exact resize_full_models hm (by rw [← hm.1]; exact hfull) hgrow hn

/-- Claim C5, counterexample: with `GrowBySingle` under the CHECKED boundary
policy, pushing onto a full capacity-1 buffer signals Overflow - the size
does not increase.  Moreover even unchecked, pushing onto a full capacity-0
buffer grows the capacity to 1 but the element is NOT retrievable: the
migrated head points past the single live slot, so the pop reads
uninitialized memory (`none`), not 7. -/
theorem C5_growsingle_counterexample :
    c5Checked = .error CBError.Overflow ∧
    c5ZeroCap = .ok none ∧
    c5ZeroCap ≠ .ok (some 7) :=
  ⟨rfl, rfl, fun h => Option.noConfusion (Except.ok.inj h)⟩

/-- Claim C5, amended: with `GrowBySingle` under the UNCHECKED boundary
policy, pushing a value onto a full buffer of positive capacity (with
`capacity + 1 < 2^64`) increases `size()` by exactly 1, and the pushed
element pops out in FIFO order after all elements pushed before it. -/
theorem C5_growsingle_unchecked {T : Type} (b : CircularBuffer T) (q : List T)
    (v : T) (hm : Models b q) (hfull : b._count = b._size)
    (hW : b._size + 1 < W) :
    ∃ b' b'', push GrowSingle NoBoundaryCheck b v = .ok b' ∧
      b'.size = b.size + 1 ∧
      popList NoBoundaryCheck (q.length + 1) b' = .ok ((q ++ [v]).map some, b'') := by
  have hgs : GrowSingle.newSize b._size = b._size + 1 := by
    show (b._size + 1) % W = b._size + 1
    exact Nat.mod_eq_of_lt hW
  obtain ⟨hpush, hmodels, hsz⟩ := push_full_models GrowSingle v hm hfull
    (by rw [hgs]; omega) (by rw [hgs]; omega)
  obtain ⟨b'', hb'', _⟩ := popList_models (Or.inl rfl) (q ++ [v]) _ hmodels
  refine ⟨_, b'', hpush, ?_, ?_⟩
  · show ((b.resize (GrowSingle.newSize b._size)).pushRaw v)._size = b._size + 1
    rw [pushRaw_size] at hsz
    rw [pushRaw_size, hsz, hgs]
  · simpa [List.length_append] using hb''

/-- Claim C6, counterexample: `GrowDouble::newSize(0)` is `0`, not the
claimed special-cased minimum of 1 - there is no special case in the code. -/
theorem C6_growdouble_counterexample :
    GrowDouble.newSize 0 = 0 ∧ GrowDouble.newSize 0 ≠ 1 := by
  decide

/-- Claim C6, amended: `GrowByDouble` maps every capacity `c` to `c * 2`
(as `size_t`, i.e. modulo 2^64) with NO special case at 0.  Consequently a
push onto a full buffer of positive size `s` (with `2s < 2^64`) under the
unchecked boundary policy doubles `size()`, while from size 0 the growth
request `resize(0)` is a no-op and `size()` stays 0 (count becomes 1). -/
theorem C6_growdouble_doubles :
    (∀ c : Nat, GrowDouble.newSize c = c * 2 % W) ∧
    (∀ (T : Type) (b : CircularBuffer T) (v : T),
      b._count = b._size → 0 < b._size → b._size * 2 < W →
      ∃ b', push GrowDouble NoBoundaryCheck b v = .ok b' ∧ b'.size = b.size * 2) ∧
    ((CircularBuffer.push GrowDouble NoBoundaryCheck (CircularBuffer.construct Nat 0) 7).map
      (fun b => (b.size, b.count)) = .ok (0, 1)) := by
  refine ⟨fun c => rfl, ?_, rfl⟩
  intro T b v hfull hpos hW
  have hgd : GrowDouble.newSize b._size = b._size * 2 := by
    show b._size * 2 % W = b._size * 2
    exact Nat.mod_eq_of_lt hW
  refine ⟨_, push_full_unchecked hfull v, ?_⟩
  show ((b.resize (GrowDouble.newSize b._size)).pushRaw v)._size = b._size * 2
  rw [pushRaw_size, resize_size, hgd]

/-- Claim C2: for every capacity `c` (any `size_t` value), any `n ≤ c` values
`v1..vn`, and either shipped boundary policy with any growth policy: pushing
`v1..vn` into a fresh empty buffer of capacity `c` and then popping `n` times
returns exactly `v1..vn` in order; and (round trip) on any well-formed empty
buffer, `push(x)` followed by `pop()` returns `x`. -/
theorem C2_fifo_roundtrip {T : Type} (gp : GrowPolicyT) (bp : BoundaryPolicyT)
    (hbp : bp = NoBoundaryCheck ∨ bp = CheckBoundaryThrow) :
    (∀ (c : Nat) (vs : List T), c < W → vs.length ≤ c →
      ∃ b b', pushList gp bp (construct T c) vs = .ok b ∧
        popList bp vs.length b = .ok (vs.map some, b')) ∧
    (∀ (b : CircularBuffer T) (x : T), Models b [] →
      ∃ b', push gp bp b x = .ok (b.pushRaw x) ∧
        (b.pushRaw x).pop bp = .ok (some x, b')) := by
  constructor
  · intro c vs hc hlen
    rcases Nat.eq_zero_or_pos c with hc0 | hcpos
    · subst hc0
      have hvs : vs = [] := List.eq_nil_of_length_eq_zero (by omega)
      subst hvs
      exact ⟨construct T 0, construct T 0, rfl, rfl⟩
    · have hm0 := construct_models (T := T) hc hcpos
      obtain ⟨b, hb, hmb, _⟩ := pushList_models hbp vs (construct T c) [] hm0
        (by simpa [construct] using hlen)
      obtain ⟨b', hb', _⟩ := popList_models hbp vs b (by simpa using hmb)
      exact ⟨b, b', hb, hb'⟩
  · intro b x hm
    have hpos : 0 < b._size := by
      have h4 := hm.2.2.2.1
      omega
    have hne : b._count ≠ b._size := by
      have h1 := hm.1
      simp only [List.length_nil] at h1
      omega
    have hpush := push_notFull gp hbp hne x
    have hm1 : Models (b.pushRaw x) [x] := by
      have h := pushRaw_models (v := x) hm (by simp only [List.length_nil]; omega)
      simpa using h
    obtain ⟨hpop, _⟩ := pop_models hbp hm1
    exact ⟨_, hpush, hpop⟩

/-- Claim C2 witness: capacity 2, pushing 4 then 5 and popping twice returns
4 then 5. -/
theorem C2_fifo_roundtrip_witness :
    ∃ b b', pushList NoGrow CheckBoundaryThrow (construct Nat 2) [4, 5] = .ok b ∧
      popList CheckBoundaryThrow 2 b = .ok ([some 4, some 5], b') := by
  have h := (C2_fifo_roundtrip (T := Nat) NoGrow CheckBoundaryThrow (Or.inr rfl)).1
    2 [4, 5] (by decide) (by decide)
  simpa using h

/-- Claim C3 witness: the spec's own capacity-3 full state (elements
D=40 at slot 0, B=20, C=30 at slots 1-2, head = tail = 1), resized to 5. -/
theorem C3_resize_migration_witness :
    (((⟨3, 3, 1, 1, [some 40, some 20, some 30]⟩ : CircularBuffer Nat).resize 5).size = 5 ∧
     ((⟨3, 3, 1, 1, [some 40, some 20, some 30]⟩ : CircularBuffer Nat).resize 5).count =
       (⟨3, 3, 1, 1, [some 40, some 20, some 30]⟩ : CircularBuffer Nat).count ∧
     ((⟨3, 3, 1, 1, [some 40, some 20, some 30]⟩ : CircularBuffer Nat).resize 5)._nextPushPos =
       (⟨3, 3, 1, 1, [some 40, some 20, some 30]⟩ : CircularBuffer Nat)._nextPushPos ∧
     ((⟨3, 3, 1, 1, [some 40, some 20, some 30]⟩ : CircularBuffer Nat).resize 5)._nextPopPos =
       (⟨3, 3, 1, 1, [some 40, some 20, some 30]⟩ : CircularBuffer Nat)._nextPopPos + (5 - 3) ∧
     (∀ i, i < (⟨3, 3, 1, 1, [some 40, some 20, some 30]⟩ : CircularBuffer Nat)._nextPushPos →
       ((⟨3, 3, 1, 1, [some 40, some 20, some 30]⟩ : CircularBuffer Nat).resize 5)._elements[i]? =
         (⟨3, 3, 1, 1, [some 40, some 20, some 30]⟩ : CircularBuffer Nat)._elements[i]?) ∧
     (∀ i, (⟨3, 3, 1, 1, [some 40, some 20, some 30]⟩ : CircularBuffer Nat)._nextPushPos ≤ i →
       i < (⟨3, 3, 1, 1, [some 40, some 20, some 30]⟩ : CircularBuffer Nat)._size →
       ((⟨3, 3, 1, 1, [some 40, some 20, some 30]⟩ : CircularBuffer Nat).resize 5)._elements[i + (5 - 3)]? =
         (⟨3, 3, 1, 1, [some 40, some 20, some 30]⟩ : CircularBuffer Nat)._elements[i]?)) ∧
    (∀ q, Models (⟨3, 3, 1, 1, [some 40, some 20, some 30]⟩ : CircularBuffer Nat) q →
      (⟨3, 3, 1, 1, [some 40, some 20, some 30]⟩ : CircularBuffer Nat).count =
        (⟨3, 3, 1, 1, [some 40, some 20, some 30]⟩ : CircularBuffer Nat).size →
      Models ((⟨3, 3, 1, 1, [some 40, some 20, some 30]⟩ : CircularBuffer Nat).resize 5) q) ∧
    c3PopsAfterResize = .ok (some 20, some 30, some 40) :=
  C3_resize_migration (⟨3, 3, 1, 1, [some 40, some 20, some 30]⟩ : CircularBuffer Nat) 5
    (by decide) (by decide) (by decide) (by decide) (by decide)

/-- Claim C4, counterexample: under the UNCHECKED boundary policy the
invariant `count() ≤ size()` does not survive every operation sequence: a
single pop on a freshly constructed (empty) capacity-3 buffer wraps the
count to `2^64 - 1 > 3`. -/
theorem C4_invariant_counterexample :
    ¬ ((run NoGrow NoBoundaryCheck (CircularBuffer.construct Nat 3) [Op.pop]).count ≤
       (run NoGrow NoBoundaryCheck (CircularBuffer.construct Nat 3) [Op.pop]).size) := by
  decide

/-- Claim C4, amended: under the `CheckedThrow` boundary policy with ANY
growth policy, after any sequence of push / pop / clear / resize operations
from construction - where each explicit resize requests a representable
capacity at least the current count (the growth-only regime the spec
documents) - the invariant `0 ≤ count() ≤ size()` holds. -/
theorem C4_capacity_invariant {T : Type} (gp : GrowPolicyT) (c : Nat)
    (ops : List (Op T)) (hc : c < W)
    (hops : goodResizes gp CheckBoundaryThrow (CircularBuffer.construct T c) ops = true) :
    0 ≤ (run gp CheckBoundaryThrow (CircularBuffer.construct T c) ops).count ∧
    (run gp CheckBoundaryThrow (CircularBuffer.construct T c) ops).count ≤
      (run gp CheckBoundaryThrow (CircularBuffer.construct T c) ops).size := by
  refine ⟨Nat.zero_le _, ?_⟩
  exact (run_inv ops (construct T c) (Nat.zero_le c) hc hops).1

/-- Claim C4 witness: capacity 2 with `GrowDouble`, running push, push, pop,
resize(3), clear under the checked policy. -/
theorem C4_capacity_invariant_witness :
    0 ≤ (run GrowDouble CheckBoundaryThrow (CircularBuffer.construct Nat 2)
      [Op.push 1, Op.push 2, Op.pop, Op.resize 3, Op.clear]).count ∧
    (run GrowDouble CheckBoundaryThrow (CircularBuffer.construct Nat 2)
      [Op.push 1, Op.push 2, Op.pop, Op.resize 3, Op.clear]).count ≤
    (run GrowDouble CheckBoundaryThrow (CircularBuffer.construct Nat 2)
      [Op.push 1, Op.push 2, Op.pop, Op.resize 3, Op.clear]).size :=
  C4_capacity_invariant GrowDouble 2 [Op.push 1, Op.push 2, Op.pop, Op.resize 3, Op.clear]
    (by decide) (by decide)

/-- Claim C7: with `CheckedThrow` and `NoGrow`, a push on a full buffer
(`count = size`) signals Overflow and a pop on an empty buffer signals
Underflow; the checks throw before any mutation, so in the model no successor
state is produced and the C++ object keeps its entire prior state. -/
theorem C7_checked_nogrow {T : Type} (b : CircularBuffer T) (v : T) :
    (b.count = b.size → push NoGrow CheckBoundaryThrow b v = .error CBError.Overflow) ∧
    (b.count = 0 → b.pop CheckBoundaryThrow = .error CBError.Underflow) := by
  constructor
  · intro hfull
    exact push_eq_error
      (by simp only [CheckBoundaryThrow]; rw [if_pos (show b._count = b._size from hfull)])
  · intro h0
    exact pop_eq_error
      (by simp only [CheckBoundaryThrow]; rw [if_pos (show b._count = 0 from h0)])

/-- Claim C7 witness: a full capacity-1 buffer rejects a push, an empty
capacity-1 buffer rejects a pop. -/
theorem C7_checked_nogrow_witness :
    push NoGrow CheckBoundaryThrow (⟨1, 1, 0, 0, [some 9]⟩ : CircularBuffer Nat) 5 =
      .error CBError.Overflow ∧
    (CircularBuffer.construct Nat 1).pop CheckBoundaryThrow = .error CBError.Underflow :=
  ⟨(C7_checked_nogrow (⟨1, 1, 0, 0, [some 9]⟩ : CircularBuffer Nat) 5).1 rfl,
   (C7_checked_nogrow (CircularBuffer.construct Nat 1) 5).2 rfl⟩

/-- Claim C8: for every buffer state (with a representable count) and either
shipped boundary policy, `clear` pops until `count() = 0`, never signals an
error (it returns `.ok`), leaves the capacity unchanged, and is a no-op on an
already-empty buffer. -/
theorem C8_clear_total {T : Type} (bp : BoundaryPolicyT)
    (hbp : bp = NoBoundaryCheck ∨ bp = CheckBoundaryThrow)
    (b : CircularBuffer T) (hcW : b._count < W) :
    (∃ b', b.clear bp = .ok b' ∧ b'.count = 0 ∧ b'.size = b.size) ∧
    (b.count = 0 → b.clear bp = .ok b) := by
  constructor
  · exact clear_ok hbp b hcW
  · intro h0
    unfold clear
    rw [show b._count = 0 from h0]
    rfl

/-- Claim C8 witness: clearing a capacity-2 buffer holding two elements under
the checked policy. -/
theorem C8_clear_total_witness :
    (∃ b', (⟨2, 2, 0, 0, [some 5, some 6]⟩ : CircularBuffer Nat).clear CheckBoundaryThrow =
        .ok b' ∧ b'.count = 0 ∧
        b'.size = (⟨2, 2, 0, 0, [some 5, some 6]⟩ : CircularBuffer Nat).size) ∧
    ((⟨2, 2, 0, 0, [some 5, some 6]⟩ : CircularBuffer Nat).count = 0 →
      (⟨2, 2, 0, 0, [some 5, some 6]⟩ : CircularBuffer Nat).clear CheckBoundaryThrow =
        .ok (⟨2, 2, 0, 0, [some 5, some 6]⟩ : CircularBuffer Nat)) :=
  C8_clear_total CheckBoundaryThrow (Or.inr rfl)
    (⟨2, 2, 0, 0, [some 5, some 6]⟩ : CircularBuffer Nat) (by decide)

/-- Claim C9: under `CheckBoundaryThrow` the growth policy is never
consulted: `push` yields the same result for any two growth policies; on a
full buffer it signals Overflow (before any growth or resize), and whenever
it succeeds the capacity is unchanged. -/
theorem C9_checked_never_grows {T : Type} (gp gp' : GrowPolicyT)
    (b : CircularBuffer T) (v : T) :
    push gp CheckBoundaryThrow b v = push gp' CheckBoundaryThrow b v ∧
    (b.count = b.size → push gp CheckBoundaryThrow b v = .error CBError.Overflow) ∧
    (∀ b', push gp CheckBoundaryThrow b v = .ok b' → b'.size = b.size) := by
  by_cases hfull : b._count = b._size
  · have he : ∀ g : GrowPolicyT, push g CheckBoundaryThrow b v = .error CBError.Overflow :=
      fun g => push_eq_error (by simp only [CheckBoundaryThrow]; rw [if_pos hfull])
    refine ⟨(he gp).trans (he gp').symm, fun _ => he gp, ?_⟩
    intro b' hb'
    rw [he gp] at hb'
    exact Except.noConfusion hb'
  · have hok := push_notFull gp (Or.inr rfl) hfull v
    have hok' := push_notFull gp' (Or.inr rfl) hfull v
    refine ⟨hok.trans hok'.symm, fun h => absurd h hfull, ?_⟩
    intro b' hb'
    rw [hok] at hb'
    rw [← Except.ok.inj hb']
    rfl

/-- Claim C9 witness: `NoGrow` and `GrowDouble` agree on a full checked
capacity-1 buffer (both signal Overflow). -/
theorem C9_checked_never_grows_witness :
    push NoGrow CheckBoundaryThrow (⟨1, 1, 0, 0, [some 3]⟩ : CircularBuffer Nat) 5 =
      push GrowDouble CheckBoundaryThrow (⟨1, 1, 0, 0, [some 3]⟩ : CircularBuffer Nat) 5 ∧
    push NoGrow CheckBoundaryThrow (⟨1, 1, 0, 0, [some 3]⟩ : CircularBuffer Nat) 5 =
      .error CBError.Overflow :=
  ⟨(C9_checked_never_grows NoGrow GrowDouble (⟨1, 1, 0, 0, [some 3]⟩ : CircularBuffer Nat) 5).1,
   (C9_checked_never_grows NoGrow GrowDouble
     (⟨1, 1, 0, 0, [some 3]⟩ : CircularBuffer Nat) 5).2.1 rfl⟩

/-- Claim C10: under `NoBoundaryCheck`, popping an empty buffer decrements
`_count` in `size_t` arithmetic, i.e. modulo `W = 2^64`: afterwards
`count() = 2^64 - 1`, `isEmpty()` is false, and (for any buffer whose
capacity is below `2^64 - 1`) `count() > size()` - the bookkeeping wraps
instead of rejecting the operation. -/
theorem C10_unchecked_underflow_wraps {T : Type} (b : CircularBuffer T)
    (h0 : b.count = 0) (hs : b.size < W - 1) :
    ∃ v b', b.pop NoBoundaryCheck = .ok (v, b') ∧
      b'.count = W - 1 ∧ b'.isEmpty = false ∧ b'.size < b'.count := by
  have hchk : NoBoundaryCheck.checkEmpty b._count = Except.ok () := rfl
  have hok := pop_eq_ok hchk
  have hcount : b.popState._count = W - 1 := by
    simp only [popState_count, show b._count = 0 from h0, Nat.add_zero]
    exact Nat.mod_eq_of_lt (Nat.sub_lt W_pos Nat.one_pos)
  refine ⟨_, _, hok, hcount, ?_, ?_⟩
  · simp only [isEmpty, hcount]
    decide
  · show b.popState._size < b.popState._count
    rw [hcount, popState_size]
    exact hs

/-- Claim C10 witness: popping a fresh empty capacity-3 buffer unchecked. -/
theorem C10_unchecked_underflow_wraps_witness :
    ∃ v b', (CircularBuffer.construct Nat 3).pop NoBoundaryCheck = .ok (v, b') ∧
      b'.count = W - 1 ∧ b'.isEmpty = false ∧ b'.size < b'.count :=
  C10_unchecked_underflow_wraps (CircularBuffer.construct Nat 3) rfl (by decide)

/-- Claim C5 witness: a full capacity-1 buffer holding 9; pushing 7 grows the
capacity to 2 and the two pops return 9 then 7. -/
theorem C5_growsingle_unchecked_witness :
    ∃ b' b'', push GrowSingle NoBoundaryCheck
        (⟨1, 1, 0, 0, [some 9]⟩ : CircularBuffer Nat) 7 = .ok b' ∧
      b'.size = (⟨1, 1, 0, 0, [some 9]⟩ : CircularBuffer Nat).size + 1 ∧
      popList NoBoundaryCheck ([9].length + 1) b' = .ok (([9] ++ [7]).map some, b'') :=
  C5_growsingle_unchecked (⟨1, 1, 0, 0, [some 9]⟩ : CircularBuffer Nat) [9] 7
    (by
      refine ⟨rfl, by decide, by decide, by decide, by decide, rfl, ?_⟩
      intro i h
      simp only [List.length_singleton] at h
      have hi0 : i = 0 := by omega
      subst hi0
      rfl)
    rfl (by decide)

/-- Claim C6 witness: a full capacity-2 buffer; pushing under `GrowDouble`
unchecked doubles the capacity to 4. -/
theorem C6_growdouble_doubles_witness :
    ∃ b', push GrowDouble NoBoundaryCheck
        (⟨2, 2, 0, 0, [some 8, some 9]⟩ : CircularBuffer Nat) 1 = .ok b' ∧
      b'.size = (⟨2, 2, 0, 0, [some 8, some 9]⟩ : CircularBuffer Nat).size * 2 :=
  C6_growdouble_doubles.2.1 Nat (⟨2, 2, 0, 0, [some 8, some 9]⟩ : CircularBuffer Nat) 1
    rfl (by decide) (by decide)
